import Mathlib

/-!
Shallow embedding of `torchy_baselines/common/callbacks.py`: the callback
(hook) mechanism of a reinforcement-learning training loop. Python classes
become Lean structures, mutation becomes explicit state passing, and Python
runtime errors (AttributeError on a `None` attribute access, AssertionError,
ZeroDivisionError from `%` by zero) become `Except` results. External
collaborators (the RL model, `evaluate_policy`, the filesystem) are modelled
as oracle inputs and emitted save-request paths.
-/

namespace Callbacks

/-- Opaque reference identity for the trainer's locals/globals dicts: the
code stores the references, so two hooks hold "the same" dict iff the ids
are equal. -/
abbrev Ctx := Nat

/-- Python runtime errors that the callback code can raise. -/
inductive PyErr where
  | attributeError
  | assertionError
  | zeroDivisionError
deriving DecidableEq, Repr

/-- The trainer (`BaseRLModel`) as seen by callbacks: only `num_timesteps`
and `get_env()` are consumed. -/
structure Model where
  num_timesteps : Int
  env : Nat
deriving DecidableEq, Repr

/-- Embeds `Logger.CURRENT`, an opaque logger reference. -/
def loggerCurrent : Nat := 0

/-- Extended reward value: `best_mean_reward` starts at `-np.inf`, so its
domain is the rationals together with negative infinity. -/
inductive XRat where
  | negInf
  | val (q : ℚ)
deriving DecidableEq, Repr

/-- Strict `<` on extended rewards (`-inf < q` for every finite `q`). -/
def XRat.lt : XRat → XRat → Bool
  | .negInf, .negInf => false
  | .negInf, .val _ => true
  | .val _, .negInf => false
  | .val a, .val b => decide (a < b)

/-- Non-strict `≤` on extended rewards. -/
def XRat.le : XRat → XRat → Bool
  | .negInf, _ => true
  | .val _, .negInf => false
  | .val a, .val b => decide (a ≤ b)

/-- Embeds `np.mean` on a list of rewards (faithful for the nonempty lists that
`evaluate_policy` returns). -/
def npMean (xs : List ℚ) : ℚ := xs.sum / xs.length

/-- An arbitrary child callback, abstractly: its `_on_step` body is abstract
in the source (`stepResult` is an oracle indexed by the child's own call
counter), and each overridable lifecycle entry point is instrumented with an
invocation counter so that propagation is observable. -/
structure Child where
  n_calls : Nat
  num_timesteps : Int
  inits : Nat
  trainStarts : Nat
  rolloutStarts : Nat
  rolloutEnds : Nat
  trainEnds : Nat
  locals : Option Ctx
  globals : Option Ctx
  hasParent : Bool
  stepResult : Nat → Bool

/-- Embeds `BaseCallback.__call__` on a child: increment `n_calls`, set
`num_timesteps` to the trainer's counter plus one, return `_on_step()`. -/
def Child.call (c : Child) (model_ts : Int) : Bool × Child :=
  let c := { c with n_calls := c.n_calls + 1, num_timesteps := model_ts + 1 }
  (c.stepResult c.n_calls, c)

/-- Embeds `BaseCallback.init_callback` on a child (binds the model and runs the
`_init_callback` extension point). -/
def Child.init_callback (c : Child) : Child :=
  { c with inits := c.inits + 1 }

/-- Embeds `BaseCallback.on_training_start` on a child: stores the locals/globals
references, runs `_on_training_start`. -/
def Child.on_training_start (c : Child) (l g : Ctx) : Child :=
  { c with trainStarts := c.trainStarts + 1, locals := some l, globals := some g }

/-- Embeds `BaseCallback.on_rollout_start` on a child. -/
def Child.on_rollout_start (c : Child) : Child :=
  { c with rolloutStarts := c.rolloutStarts + 1 }

/-- Embeds `BaseCallback.on_rollout_end` on a child. -/
def Child.on_rollout_end (c : Child) : Child :=
  { c with rolloutEnds := c.rolloutEnds + 1 }

/-- Embeds `BaseCallback.on_training_end` on a child. -/
def Child.on_training_end (c : Child) : Child :=
  { c with trainEnds := c.trainEnds + 1 }

/-- A concrete child for counterexamples and witnesses. -/
def child0 : Child :=
  { n_calls := 0, num_timesteps := 0, inits := 0, trainStarts := 0,
    rolloutStarts := 0, rolloutEnds := 0, trainEnds := 0,
    locals := none, globals := none, hasParent := false,
    stepResult := fun _ => true }

/-- A child whose `_on_step` always returns `False`. -/
def childFalse : Child := { child0 with stepResult := fun _ => false }

/-! ## CallbackList -/

/-- Embeds `CallbackList`: base-callback state plus the ordered children. -/
structure CallbackList where
  n_calls : Nat
  num_timesteps : Int
  locals : Option Ctx
  globals : Option Ctx
  callbacks : List Child

/-- Embeds `CallbackList(callbacks)`. -/
def CallbackList.new (cbs : List Child) : CallbackList :=
  { n_calls := 0, num_timesteps := 0, locals := none, globals := none,
    callbacks := cbs }

/-- Embeds `CallbackList.init_callback` (via `BaseCallback.init_callback` →
`_init_callback`): `for callback in self.callbacks: callback.init_callback(self.model)`. -/
def CallbackList.init_callback (s : CallbackList) : CallbackList :=
  { s with callbacks := s.callbacks.map Child.init_callback }

/-- Embeds `CallbackList.on_training_start`: the base stores the locals/globals
references, then `_on_training_start` passes the same references to every
child in order. -/
def CallbackList.on_training_start (s : CallbackList) (l g : Ctx) : CallbackList :=
  { s with locals := some l, globals := some g,
           callbacks := s.callbacks.map (fun c => c.on_training_start l g) }

/-- Embeds `CallbackList.on_rollout_start`: `CallbackList` does NOT override
`_on_rollout_start`, so the inherited no-op runs and no child is called. -/
def CallbackList.on_rollout_start (s : CallbackList) : CallbackList := s

/-- Embeds `CallbackList.on_rollout_end`: likewise inherited as a no-op. -/
def CallbackList.on_rollout_end (s : CallbackList) : CallbackList := s

/-- Embeds `CallbackList.on_training_end` → `_on_training_end`: propagates to every
child in order. -/
def CallbackList.on_training_end (s : CallbackList) : CallbackList :=
  { s with callbacks := s.callbacks.map Child.on_training_end }

/-- The loop body of `CallbackList._on_step`:
`continue_training = callback() and continue_training`, over the children in
list order, threading the accumulator. -/
def callbackListLoop (model_ts : Int) : List Child → Bool → Bool × List Child
  | [], ct => (ct, [])
  | c :: cs, ct =>
    let (r, c') := c.call model_ts
    let (res, cs') := callbackListLoop model_ts cs (r && ct)
    (res, c' :: cs')

/-- Embeds `CallbackList.__call__`: bump own counters, then `_on_step` runs the
loop starting from `continue_training = True`. -/
def CallbackList.call (s : CallbackList) (model_ts : Int) : Bool × CallbackList :=
  let s := { s with n_calls := s.n_calls + 1, num_timesteps := model_ts + 1 }
  let (res, cbs) := callbackListLoop model_ts s.callbacks true
  (res, { s with callbacks := cbs })

/-! ## BaseCallback (generic mechanics of `__call__` and the lifecycle) -/

/-- The fields of `BaseCallback` that its own methods touch. -/
structure BaseCallback where
  n_calls : Nat
  num_timesteps : Int
  locals : Option Ctx
  globals : Option Ctx

/-- Embeds `BaseCallback.__call__`, parametric in the abstract `_on_step`:
`self.n_calls += 1; self.num_timesteps = self.model.num_timesteps + 1;
return self._on_step()`. -/
def BaseCallback.call (on_step : BaseCallback → Bool × BaseCallback)
    (s : BaseCallback) (model_ts : Int) : Bool × BaseCallback :=
  on_step { s with n_calls := s.n_calls + 1, num_timesteps := model_ts + 1 }

/-- Embeds `BaseCallback.on_training_start`: stores the references, runs the
`_on_training_start` no-op; returns no boolean. -/
def BaseCallback.on_training_start (s : BaseCallback) (l g : Ctx) : BaseCallback :=
  { s with locals := some l, globals := some g }

/-- Embeds `BaseCallback.on_rollout_start`: runs the `_on_rollout_start` no-op;
returns no boolean. -/
def BaseCallback.on_rollout_start (s : BaseCallback) : BaseCallback := s

/-- Embeds `BaseCallback.on_rollout_end`: runs the `_on_rollout_end` no-op. -/
def BaseCallback.on_rollout_end (s : BaseCallback) : BaseCallback := s

/-- Embeds `BaseCallback.on_training_end`: runs the `_on_training_end` no-op. -/
def BaseCallback.on_training_end (s : BaseCallback) : BaseCallback := s

/-! ## EventCallback -/

/-- Embeds `EventCallback`: base-callback state plus the optional wrapped child. -/
structure EventCallback where
  callback : Option Child
  model : Option Model
  training_env : Option Nat
  logger : Option Nat
  locals : Option Ctx
  globals : Option Ctx
  n_calls : Nat
  num_timesteps : Int

/-- Embeds `EventCallback.__init__(callback)`: stores the child and, when one is
given, sets the child's parent back-reference. Construction never fails. -/
def EventCallback.new (cb : Option Child) : EventCallback :=
  { callback := cb.map (fun c => { c with hasParent := true }),
    model := none, training_env := none, logger := none,
    locals := none, globals := none, n_calls := 0, num_timesteps := 0 }

/-- Embeds `EventCallback.init_callback`: `super().init_callback(model)` binds
model/env/logger, then `self.callback.init_callback(self.model)` runs with
NO `None` check — a `None` child raises `AttributeError`. -/
def EventCallback.init_callback (s : EventCallback) (m : Model) :
    Except PyErr EventCallback :=
  let s := { s with model := some m, training_env := some m.env,
                    logger := some loggerCurrent }
  match s.callback with
  | none => .error .attributeError
  | some c => .ok { s with callback := some c.init_callback }

/-- Embeds `EventCallback.on_training_start`: the base stores locals/globals, then
`_on_training_start` runs `self.callback.on_training_start(...)` with NO
`None` check. -/
def EventCallback.on_training_start (s : EventCallback) (l g : Ctx) :
    Except PyErr EventCallback :=
  let s := { s with locals := some l, globals := some g }
  match s.callback with
  | none => .error .attributeError
  | some c => .ok { s with callback := some (c.on_training_start l g) }

/-- Embeds `EventCallback._on_event`: if a child exists, call it and return its
result; otherwise return `True`. -/
def EventCallback.onEvent (s : EventCallback) (model_ts : Int) :
    Bool × EventCallback :=
  match s.callback with
  | some c =>
    let (r, c') := c.call model_ts
    (r, { s with callback := some c' })
  | none => (true, s)

/-! ## CheckpointCallback -/

/-- Embeds `CheckpointCallback` (`name_prefix` is spelled `namePfx` here). -/
structure CheckpointCallback where
  save_freq : Nat
  save_path : String
  namePfx : String
  verbose : Nat
  n_calls : Nat
  num_timesteps : Int
deriving DecidableEq, Repr

/-- Embeds `CheckpointCallback(save_freq, save_path, name_prefix)`. -/
def CheckpointCallback.new (save_freq : Nat) (save_path : String)
    (np : String) (verbose : Nat) : CheckpointCallback :=
  { save_freq := save_freq, save_path := save_path, namePfx := np,
    verbose := verbose, n_calls := 0, num_timesteps := 0 }

/-- Embeds `CheckpointCallback._on_step`: `if self.n_calls % self.save_freq == 0`
request a save of the model to
`os.path.join(save_path, f"(name_prefix)_(num_timesteps)_steps")`; always
return `True`. Python `%` by zero raises `ZeroDivisionError`. The returned
list holds the save-request paths issued by this call. -/
def CheckpointCallback.onStep (s : CheckpointCallback) :
    Except PyErr (Bool × List String) :=
  if s.save_freq = 0 then .error .zeroDivisionError
  else if s.n_calls % s.save_freq = 0 then
    .ok (true, [s.save_path ++ "/" ++ s.namePfx ++ "_"
                  ++ toString s.num_timesteps ++ "_steps"])
  else .ok (true, [])

/-- Embeds `CheckpointCallback.__call__`: bump counters, then `_on_step`. -/
def CheckpointCallback.step (s : CheckpointCallback) (model_ts : Int) :
    Except PyErr (Bool × CheckpointCallback × List String) :=
  let s := { s with n_calls := s.n_calls + 1, num_timesteps := model_ts + 1 }
  match s.onStep with
  | .error e => .error e
  | .ok (b, saves) => .ok (b, s, saves)

/-- Drive `T` consecutive `step()` calls, feeding the trainer's timestep for
each call, and collect every save request issued. -/
def CheckpointCallback.run (s : CheckpointCallback) :
    List Int → Except PyErr (CheckpointCallback × List String)
  | [] => .ok (s, [])
  | t :: ts =>
    match s.step t with
    | .error e => .error e
    | .ok (_, s', saves) =>
      match s'.run ts with
      | .error e => .error e
      | .ok (s'', rest) => .ok (s'', saves ++ rest)

/-! ## EvalCallback -/

/-- Embeds `EvalCallback` (an `EventCallback` specialization). The evaluation
environment is outside the embedding; `evaluate_policy` is an oracle input
to each step. -/
structure EvalCallback where
  callback : Option Child
  n_calls : Nat
  num_timesteps : Int
  n_eval_episodes : Nat
  eval_freq : Nat
  best_mean_reward : XRat
  deterministic : Bool
  log_path : Option String
  best_model_save_path : Option String
  evaluations_results : List (List ℚ)
  evaluations_timesteps : List Int

/-- Embeds `EvalCallback.__init__`: child gets its parent back-reference;
`best_mean_reward = -np.inf`; empty evaluation history. -/
def EvalCallback.new (cb : Option Child) (n_eval_episodes eval_freq : Nat)
    (log_path best_model_save_path : Option String) (deterministic : Bool) :
    EvalCallback :=
  { callback := cb.map (fun c => { c with hasParent := true }),
    n_calls := 0, num_timesteps := 0,
    n_eval_episodes := n_eval_episodes, eval_freq := eval_freq,
    best_mean_reward := .negInf, deterministic := deterministic,
    log_path := log_path, best_model_save_path := best_model_save_path,
    evaluations_results := [], evaluations_timesteps := [] }

/-- Embeds `EvalCallback._on_step`. `episode_rewards` is the oracle result of
`evaluate_policy`. On an evaluation call (`n_calls % eval_freq == 0`):
append to the history when a log path is set, compute the mean, and on
strict improvement request a best-model save, update `best_mean_reward`,
and fire the child (returning its result) when one exists; in every other
case return `True`. The returned list holds the model-save requests. -/
def EvalCallback.onStep (s : EvalCallback) (episode_rewards : List ℚ)
    (model_ts : Int) : Except PyErr (Bool × EvalCallback × List String) :=
  if s.eval_freq = 0 then .error .zeroDivisionError
  else if s.n_calls % s.eval_freq = 0 then
    let s :=
      match s.log_path with
      | some _ =>
        { s with evaluations_timesteps := s.evaluations_timesteps ++ [s.num_timesteps],
                 evaluations_results := s.evaluations_results ++ [episode_rewards] }
      | none => s
    let mean_reward := npMean episode_rewards
    if s.best_mean_reward.lt (.val mean_reward) then
      let saves :=
        match s.best_model_save_path with
        | some p => [p ++ "/best_model"]
        | none => []
      let s := { s with best_mean_reward := .val mean_reward }
      match s.callback with
      | some c =>
        let (r, c') := c.call model_ts
        .ok (r, { s with callback := some c' }, saves)
      | none => .ok (true, s, saves)
    else .ok (true, s, [])
  else .ok (true, s, [])

/-- Embeds `EvalCallback.__call__`: bump counters, then `_on_step`. -/
def EvalCallback.step (s : EvalCallback) (model_ts : Int)
    (episode_rewards : List ℚ) :
    Except PyErr (Bool × EvalCallback × List String) :=
  let s := { s with n_calls := s.n_calls + 1, num_timesteps := model_ts + 1 }
  s.onStep episode_rewards model_ts

/-! ## StopTrainingOnRewardThreshold -/

/-- Embeds `StopTrainingOnRewardThreshold`. The parent back-reference is read only
for its `best_mean_reward`, so it is modelled as `Option XRat`
(`none` = no parent assigned). -/
structure StopTrainingOnRewardThreshold where
  reward_threshold : ℚ
  verbose : Nat
  parent : Option XRat
  n_calls : Nat
  num_timesteps : Int
deriving DecidableEq, Repr

/-- Embeds `StopTrainingOnRewardThreshold(reward_threshold, verbose)`: a total
constructor — no parent check happens here, `parent` stays `None`. -/
def StopTrainingOnRewardThreshold.new (reward_threshold : ℚ) (verbose : Nat) :
    StopTrainingOnRewardThreshold :=
  { reward_threshold := reward_threshold, verbose := verbose,
    parent := none, n_calls := 0, num_timesteps := 0 }

/-- Embeds `StopTrainingOnRewardThreshold._on_step`:
`assert self.parent is not None`, then
`continue_training = bool(self.parent.best_mean_reward < self.reward_threshold)`. -/
def StopTrainingOnRewardThreshold.onStep (s : StopTrainingOnRewardThreshold) :
    Except PyErr Bool :=
  match s.parent with
  | none => .error .assertionError
  | some best => .ok (best.lt (.val s.reward_threshold))

/-- Embeds `StopTrainingOnRewardThreshold.__call__`: bump counters, `_on_step`. -/
def StopTrainingOnRewardThreshold.step (s : StopTrainingOnRewardThreshold)
    (model_ts : Int) : Except PyErr (Bool × StopTrainingOnRewardThreshold) :=
  let s := { s with n_calls := s.n_calls + 1, num_timesteps := model_ts + 1 }
  match s.onStep with
  | .error e => .error e
  | .ok b => .ok (b, s)

/-! ## EveryNTimesteps -/

/-- Embeds `EveryNTimesteps` (an `EventCallback` specialization; the child argument
is mandatory in its constructor). -/
structure EveryNTimesteps where
  n_steps : Int
  last_time_trigger : Int
  callback : Option Child
  n_calls : Nat
  num_timesteps : Int

/-- Embeds `EveryNTimesteps(n_steps, callback)`: `last_time_trigger = 0`, the
child's parent back-reference is set. -/
def EveryNTimesteps.new (n_steps : Int) (cb : Child) : EveryNTimesteps :=
  { n_steps := n_steps, last_time_trigger := 0,
    callback := some { cb with hasParent := true },
    n_calls := 0, num_timesteps := 0 }

/-- Embeds `EveryNTimesteps._on_step`: when
`num_timesteps - last_time_trigger >= n_steps`, set `last_time_trigger` to
the current timestep and fire `_on_event` (the child's result); otherwise
return `True`. -/
def EveryNTimesteps.onStep (s : EveryNTimesteps) (model_ts : Int) :
    Bool × EveryNTimesteps :=
  if s.num_timesteps - s.last_time_trigger ≥ s.n_steps then
    let s := { s with last_time_trigger := s.num_timesteps }
    match s.callback with
    | some c =>
      let (r, c') := c.call model_ts
      (r, { s with callback := some c' })
    | none => (true, s)
  else (true, s)

/-- Embeds `EveryNTimesteps.__call__`: bump counters, then `_on_step`. -/
def EveryNTimesteps.step (s : EveryNTimesteps) (model_ts : Int) :
    Bool × EveryNTimesteps :=
  let s := { s with n_calls := s.n_calls + 1, num_timesteps := model_ts + 1 }
  s.onStep model_ts

/-! ## Helper lemmas -/

theorem XRat.le_refl (a : XRat) : a.le a = true := by
  cases a <;> simp [XRat.le]

theorem XRat.lt_irrefl (a : XRat) : a.lt a = false := by
  cases a <;> simp [XRat.lt]

theorem XRat.lt_imp_le {a b : XRat} (h : a.lt b = true) : a.le b = true := by
  cases a <;> cases b <;> simp_all [XRat.lt, XRat.le]
  exact le_of_lt h

theorem XRat.lt_eq_false_iff_le {a b : XRat} : a.lt b = false ↔ b.le a = true := by
  cases a <;> cases b <;> simp [XRat.lt, XRat.le]

theorem callbackListLoop_fst (model_ts : Int) :
    ∀ (cs : List Child) (ct : Bool),
      (callbackListLoop model_ts cs ct).1
        = ((cs.all fun c => c.stepResult (c.n_calls + 1)) && ct)
  | [], ct => by simp [callbackListLoop]
  | c :: cs, ct => by
    simp only [callbackListLoop, Child.call, List.all_cons]
    rw [callbackListLoop_fst model_ts cs]
    cases c.stepResult (c.n_calls + 1) <;> cases ct <;> simp

theorem callbackListLoop_snd (model_ts : Int) :
    ∀ (cs : List Child) (ct : Bool),
      (callbackListLoop model_ts cs ct).2 = cs.map fun c => (c.call model_ts).2
  | [], _ => by simp [callbackListLoop]
  | c :: cs, ct => by
    simp only [callbackListLoop, List.map_cons]
    rw [callbackListLoop_snd model_ts cs]

theorem evalOnStep_best {s : EvalCallback} {rw : List ℚ} {mt : Int}
    {b : Bool} {s' : EvalCallback} {sv : List String}
    (h : s.onStep rw mt = .ok (b, s', sv)) :
    s.best_mean_reward.le s'.best_mean_reward = true ∧
    (s'.best_mean_reward ≠ s.best_mean_reward →
      s.best_mean_reward.lt (.val (npMean rw)) = true ∧
      s'.best_mean_reward = .val (npMean rw)) ∧
    (s.best_mean_reward = .val (npMean rw) →
      s'.best_mean_reward = s.best_mean_reward ∧ sv = []) := by
  simp only [EvalCallback.onStep] at h
  by_cases h0 : s.eval_freq = 0
  · rw [if_pos h0] at h
    exact absurd h (by simp)
  rw [if_neg h0] at h
  by_cases hev : s.n_calls % s.eval_freq = 0
  case neg =>
    rw [if_neg hev] at h
    simp only [Except.ok.injEq, Prod.mk.injEq] at h
    obtain ⟨-, hs, hsv⟩ := h
    subst hs
    subst hsv
    exact ⟨XRat.le_refl _, fun hne => absurd rfl hne, fun _ => ⟨rfl, rfl⟩⟩
  rw [if_pos hev] at h
  cases hlp : s.log_path <;> simp only [hlp] at h <;>
    by_cases hlt : s.best_mean_reward.lt (.val (npMean rw)) = true <;>
      [skip; skip; skip; skip] <;>
    first
    | · rw [if_pos hlt] at h
        cases hbm : s.best_model_save_path <;> simp only [hbm] at h <;>
          cases hcb : s.callback <;> simp only [hcb] at h <;>
          · simp only [Except.ok.injEq, Prod.mk.injEq] at h
            obtain ⟨-, hs, -⟩ := h
            subst hs
            refine ⟨by simpa using XRat.lt_imp_le hlt, fun _ => ⟨hlt, rfl⟩,
              fun hteq => ?_⟩
            rw [hteq] at hlt
            simp [XRat.lt_irrefl] at hlt
    | · rw [if_neg hlt] at h
        simp only [Except.ok.injEq, Prod.mk.injEq] at h
        obtain ⟨-, hs, hsv⟩ := h
        subst hs
        subst hsv
        exact ⟨XRat.le_refl _, fun hne => absurd rfl hne, fun _ => ⟨rfl, rfl⟩⟩

/-! ## Claims -/

/-- C1: for a `CallbackList` of N children where child i's `_on_step`
returns `r_i`, `__call__` fires every child's step in list order without
short-circuiting, returns the AND of all N results, and every child's call
counter increments exactly once regardless of the other children's
results. -/
theorem callbackList_call_and_of_children (s : CallbackList) (model_ts : Int) :
    (s.call model_ts).1 = (s.callbacks.all fun c => c.stepResult (c.n_calls + 1)) ∧
    (s.call model_ts).2.callbacks.map Child.n_calls
      = s.callbacks.map (fun c => c.n_calls + 1) := by
  constructor
  · simp [CallbackList.call, callbackListLoop_fst]
  · simp [CallbackList.call, callbackListLoop_snd, Child.call]

/-- C2 counterexample: `CallbackList` does not override
`_on_rollout_start`, so `on_rollout_start` runs the inherited no-op and the
child's rollout-start entry point is never invoked (its counter stays 0,
not 1). -/
theorem callbackList_rollout_start_not_propagated :
    (CallbackList.new [child0]).on_rollout_start.callbacks.map Child.rolloutStarts
      ≠ [1] := by
  decide

/-- C2 amended: `CallbackList` fans out `init_callback`,
`on_training_start` (with the same locals/globals references), `__call__`,
and `on_training_end` to every child in order; `on_rollout_start` and
`on_rollout_end` are inherited no-ops that leave every child untouched. -/
theorem callbackList_lifecycle_propagation (s : CallbackList) (l g : Ctx)
    (model_ts : Int) :
    s.init_callback.callbacks.map Child.inits
      = s.callbacks.map (fun c => c.inits + 1) ∧
    (s.on_training_start l g).callbacks.map Child.trainStarts
      = s.callbacks.map (fun c => c.trainStarts + 1) ∧
    (s.on_training_start l g).callbacks.map Child.locals
      = s.callbacks.map (fun _ => some l) ∧
    (s.on_training_start l g).callbacks.map Child.globals
      = s.callbacks.map (fun _ => some g) ∧
    (s.call model_ts).2.callbacks.map Child.n_calls
      = s.callbacks.map (fun c => c.n_calls + 1) ∧
    s.on_training_end.callbacks.map Child.trainEnds
      = s.callbacks.map (fun c => c.trainEnds + 1) ∧
    s.on_rollout_start = s ∧
    s.on_rollout_end = s := by
  refine ⟨?_, ?_, ?_, ?_, ?_, ?_, rfl, rfl⟩
  · simp [CallbackList.init_callback, Child.init_callback]
  · simp [CallbackList.on_training_start, Child.on_training_start]
  · simp [CallbackList.on_training_start, Child.on_training_start,
      Function.comp_def, List.map_const']
  · simp [CallbackList.on_training_start, Child.on_training_start,
      Function.comp_def, List.map_const']
  · simp [CallbackList.call, callbackListLoop_snd, Child.call]
  · simp [CallbackList.on_training_end, Child.on_training_end]

/-- C3: an `EventCallback` constructed with no child does NOT survive
`init_callback` or `on_training_start` — both dereference `self.callback`
unconditionally and raise `AttributeError` on a `None` child (while
`_on_event` does guard and returns `True`). The claim matches the class's
own `Optional` declaration and the guard in `_on_event`; the unguarded
accesses are the code slip. -/
theorem eventCallback_none_child_behaviour (m : Model) (l g : Ctx)
    (model_ts : Int) :
    (EventCallback.new none).callback = none ∧
    (EventCallback.new none).init_callback m = .error .attributeError ∧
    (EventCallback.new none).on_training_start l g = .error .attributeError ∧
    ((EventCallback.new none).onEvent model_ts).1 = true := by
  exact ⟨rfl, rfl, rfl, rfl⟩

/-- C4: `best_mean_reward` starts at `-inf`, is monotonically
non-decreasing across step calls, is updated only on a strictly greater
evaluation mean, and an evaluation whose mean ties the current best leaves
it unchanged and issues no best-model save request. (`evaluate_policy`
always returns at least one episode reward, hence `hrw`.) -/
theorem evalCallback_best_monotone (s : EvalCallback) (model_ts : Int)
    (rw : List ℚ) (b : Bool) (s' : EvalCallback) (sv : List String)
    (hrw : rw ≠ [])
    (h : s.step model_ts rw = .ok (b, s', sv)) :
    (∀ cb nep ef lp bp d,
      (EvalCallback.new cb nep ef lp bp d).best_mean_reward = .negInf) ∧
    s.best_mean_reward.le s'.best_mean_reward = true ∧
    (s'.best_mean_reward ≠ s.best_mean_reward →
      s.best_mean_reward.lt (.val (npMean rw)) = true ∧
      s'.best_mean_reward = .val (npMean rw)) ∧
    (s.best_mean_reward = .val (npMean rw) →
      s'.best_mean_reward = s.best_mean_reward ∧ sv = []) := by
  have h' : ({ s with
      n_calls := s.n_calls + 1
      num_timesteps := model_ts + 1 } : EvalCallback).onStep rw model_ts
      = .ok (b, s', sv) := h
  have hb := evalOnStep_best h'
  exact ⟨fun _ _ _ _ _ _ => rfl, hb.1, hb.2.1, hb.2.2⟩

/-- Concrete `EvalCallback` state for the C4 witness: best so far is 1,
every call evaluates. -/
def evalW : EvalCallback :=
  { callback := none, n_calls := 1, num_timesteps := 1, n_eval_episodes := 1,
    eval_freq := 1, best_mean_reward := .val 1, deterministic := true,
    log_path := none, best_model_save_path := some "best_dir",
    evaluations_results := [], evaluations_timesteps := [] }

/-- State after the C4 witness step: a tied mean leaves the best
unchanged. -/
def evalW' : EvalCallback := { evalW with n_calls := 2, num_timesteps := 1 }

/-- Witness for C4 at a concrete tied evaluation. -/
theorem evalCallback_best_monotone_witness :
    (([1] : List ℚ) ≠ []) ∧
    evalW.step 0 [1] = .ok (true, evalW', []) ∧
    ((∀ cb nep ef lp bp d,
        (EvalCallback.new cb nep ef lp bp d).best_mean_reward = .negInf) ∧
     evalW.best_mean_reward.le evalW'.best_mean_reward = true ∧
     (evalW'.best_mean_reward ≠ evalW.best_mean_reward →
       evalW.best_mean_reward.lt (.val (npMean [1])) = true ∧
       evalW'.best_mean_reward = .val (npMean [1])) ∧
     (evalW.best_mean_reward = .val (npMean [1]) →
       evalW'.best_mean_reward = evalW.best_mean_reward ∧
       ([] : List String) = [])) := by
  have hstep : evalW.step 0 [1] = .ok (true, evalW', []) := by
    simp [EvalCallback.step, EvalCallback.onStep, evalW, evalW', npMean, XRat.lt]
  exact ⟨by simp, hstep,
    evalCallback_best_monotone evalW 0 [1] true evalW' [] (by simp) hstep⟩

/-- C5: with a parent assigned, `StopTrainingOnRewardThreshold._on_step`
returns `True` (continue) whenever the parent's best mean reward is
strictly below the threshold, and `False` (stop) whenever the threshold is
less than or equal to that best. -/
theorem stopTraining_onStep_threshold (s : StopTrainingOnRewardThreshold)
    (best : XRat) (h : s.parent = some best) :
    (best.lt (.val s.reward_threshold) = true → s.onStep = .ok true) ∧
    ((XRat.val s.reward_threshold).le best = true → s.onStep = .ok false) := by
  constructor
  · intro hlt
    simp only [StopTrainingOnRewardThreshold.onStep, h, hlt]
  · intro hle
    simp only [StopTrainingOnRewardThreshold.onStep, h,
      XRat.lt_eq_false_iff_le.mpr hle]

/-- Concrete stop-hook state for the C5 witness: the parent's best (2)
already reached the threshold (1), so the hook stops training. -/
def stopW : StopTrainingOnRewardThreshold :=
  { reward_threshold := 1, verbose := 0, parent := some (.val 2),
    n_calls := 0, num_timesteps := 0 }

/-- Witness for C5 at a concrete parent best of 2 against threshold 1. -/
theorem stopTraining_onStep_threshold_witness :
    stopW.parent = some (.val 2) ∧
    (((XRat.val 2).lt (.val stopW.reward_threshold) = true →
        stopW.onStep = .ok true) ∧
     ((XRat.val stopW.reward_threshold).le (.val 2) = true →
        stopW.onStep = .ok false)) :=
  ⟨rfl, stopTraining_onStep_threshold stopW (.val 2) rfl⟩

/-- C6: a `StopTrainingOnRewardThreshold` never wrapped by an
`EvalCallback` has no parent back-reference; its constructor is total (no
failure at construction), and the first `step()` hits the
`assert self.parent is not None` precondition and raises. -/
theorem stopTraining_no_parent_asserts (threshold : ℚ) (verbose : Nat)
    (model_ts : Int) :
    (StopTrainingOnRewardThreshold.new threshold verbose).parent = none ∧
    (StopTrainingOnRewardThreshold.new threshold verbose).step model_ts
      = .error .assertionError := by
  exact ⟨rfl, rfl⟩

/-- C7: `last_time_trigger` starts at 0; a step fires the child (bumping
its call counter and returning its result) and sets `last_time_trigger` to
the current timestep exactly when
`num_timesteps - last_time_trigger >= n_steps`; every other step returns
`True` and leaves both the trigger and the child untouched. With the
initial trigger 0 this makes the first firing the first call whose
timestep reaches `n_steps`. -/
theorem everyNTimesteps_trigger (s : EveryNTimesteps) (c : Child)
    (model_ts : Int) (hc : s.callback = some c) :
    (∀ (S : Int) (cb : Child), (EveryNTimesteps.new S cb).last_time_trigger = 0) ∧
    ((model_ts + 1) - s.last_time_trigger ≥ s.n_steps →
       (s.step model_ts).1 = c.stepResult (c.n_calls + 1) ∧
       (s.step model_ts).2.last_time_trigger = model_ts + 1 ∧
       (s.step model_ts).2.callback = some (c.call model_ts).2) ∧
    (¬ ((model_ts + 1) - s.last_time_trigger ≥ s.n_steps) →
       (s.step model_ts).1 = true ∧
       (s.step model_ts).2.last_time_trigger = s.last_time_trigger ∧
       (s.step model_ts).2.callback = some c) := by
  refine ⟨fun _ _ => rfl, fun hge => ?_, fun hlt => ?_⟩
  · simp [EveryNTimesteps.step, EveryNTimesteps.onStep, hge, hc, Child.call]
  · simp [EveryNTimesteps.step, EveryNTimesteps.onStep, hlt, hc]

/-- Fresh `EveryNTimesteps` with interval 2 for the C7 witness. -/
def everyW : EveryNTimesteps := EveryNTimesteps.new 2 child0

/-- The child as stored by `EveryNTimesteps.new` (parent back-reference
set). -/
def everyWChild : Child := { child0 with hasParent := true }

/-- Witness for C7: at trainer timestep 1 the hook timestep is 2, the gap
2 - 0 reaches the interval 2, and the child fires. -/
theorem everyNTimesteps_trigger_witness :
    everyW.callback = some everyWChild ∧
    (((1 : Int) + 1) - everyW.last_time_trigger ≥ everyW.n_steps) ∧
    ((everyW.step 1).1 = everyWChild.stepResult (everyWChild.n_calls + 1) ∧
     (everyW.step 1).2.last_time_trigger = (1 : Int) + 1 ∧
     (everyW.step 1).2.callback = some (everyWChild.call 1).2) :=
  ⟨rfl, by decide,
    (everyNTimesteps_trigger everyW everyWChild 1 rfl).2.1 (by decide)⟩

theorem checkpointStep_eq (s : CheckpointCallback) (hF : s.save_freq ≠ 0)
    (mt : Int) :
    s.step mt = .ok (true,
      { s with n_calls := s.n_calls + 1, num_timesteps := mt + 1 },
      if (s.n_calls + 1) % s.save_freq = 0
      then [s.save_path ++ "/" ++ s.namePfx ++ "_"
              ++ toString (mt + 1) ++ "_steps"]
      else []) := by
  by_cases hm : (s.n_calls + 1) % s.save_freq = 0 <;>
    simp [CheckpointCallback.step, CheckpointCallback.onStep, hF, hm]

theorem checkpointRun_spec : ∀ (ts : List Int) (s : CheckpointCallback),
    s.save_freq ≠ 0 →
    ∃ s' saves, s.run ts = .ok (s', saves) ∧
      saves.length + s.n_calls / s.save_freq
        = (s.n_calls + ts.length) / s.save_freq ∧
      s'.n_calls = s.n_calls + ts.length ∧ s'.save_freq = s.save_freq
  | [], s, _ => ⟨s, [], rfl, by simp, by simp, rfl⟩
  | t :: ts, s, hF => by
    obtain ⟨s', saves, hrun, hlen, hn, hfreq⟩ :=
      checkpointRun_spec ts
        { s with n_calls := s.n_calls + 1, num_timesteps := t + 1 } hF
    have hlen' : saves.length + (s.n_calls + 1) / s.save_freq
        = (s.n_calls + 1 + ts.length) / s.save_freq := hlen
    have hn' : s'.n_calls = s.n_calls + 1 + ts.length := hn
    have hfreq' : s'.save_freq = s.save_freq := hfreq
    have hT : s.n_calls + 1 + ts.length = s.n_calls + (ts.length + 1) := by
      omega
    rw [hT] at hlen' hn'
    by_cases hc : (s.n_calls + 1) % s.save_freq = 0
    · have hdvd : s.save_freq ∣ (s.n_calls + 1) := Nat.dvd_of_mod_eq_zero hc
      have h1 : (s.n_calls + 1) / s.save_freq = s.n_calls / s.save_freq + 1 := by
        rw [Nat.succ_div, if_pos hdvd]
      refine ⟨s', (s.save_path ++ "/" ++ s.namePfx ++ "_"
          ++ toString (t + 1) ++ "_steps") :: saves, ?_, ?_, hn', hfreq'⟩
      · simp only [CheckpointCallback.run, checkpointStep_eq s hF t,
          if_pos hc, hrun, List.singleton_append]
      · rw [h1] at hlen'
        simp only [List.length_cons]
        generalize s.n_calls / s.save_freq = a at hlen' ⊢
        generalize (s.n_calls + (ts.length + 1)) / s.save_freq = d at hlen' ⊢
        omega
    · have hndvd : ¬ s.save_freq ∣ (s.n_calls + 1) :=
        fun hd => hc (Nat.mod_eq_zero_of_dvd hd)
      have h1 : (s.n_calls + 1) / s.save_freq = s.n_calls / s.save_freq := by
        rw [Nat.succ_div, if_neg hndvd, Nat.add_zero]
      refine ⟨s', saves, ?_, ?_, hn', hfreq'⟩
      · simp only [CheckpointCallback.run, checkpointStep_eq s hF t,
          if_neg hc, hrun, List.nil_append]
      · rw [h1] at hlen'
        simpa using hlen'

/-- C8: with save frequency F > 0, every `step()` returns `True`, the
save request at a step is issued exactly when the (1-based) call index is a
multiple of F, its path is `{directory}/{prefix}_{timestepCount}_steps`,
and across `T` consecutive steps from a fresh hook exactly `T / F` save
requests are issued. -/
theorem checkpointCallback_floor_saves (s : CheckpointCallback)
    (hF : s.save_freq ≠ 0) :
    (∀ mt : Int, s.step mt = .ok (true,
        { s with n_calls := s.n_calls + 1, num_timesteps := mt + 1 },
        if (s.n_calls + 1) % s.save_freq = 0
        then [s.save_path ++ "/" ++ s.namePfx ++ "_"
                ++ toString (mt + 1) ++ "_steps"]
        else [])) ∧
    (s.n_calls = 0 → ∀ ts : List Int, ∃ s' saves,
        s.run ts = .ok (s', saves) ∧ saves.length = ts.length / s.save_freq) := by
  refine ⟨fun mt => checkpointStep_eq s hF mt, fun h0 ts => ?_⟩
  obtain ⟨s', saves, hrun, hlen, -, -⟩ := checkpointRun_spec ts s hF
  refine ⟨s', saves, hrun, ?_⟩
  rw [h0] at hlen
  simpa using hlen

/-- Fresh checkpoint hook with frequency 2 for the C8 witness. -/
def ckptW : CheckpointCallback := CheckpointCallback.new 2 "ckpt" "rl_model" 0

/-- Witness for C8 at the fresh frequency-2 hook. -/
theorem checkpointCallback_floor_saves_witness :
    ckptW.save_freq ≠ 0 ∧
    ((∀ mt : Int, ckptW.step mt = .ok (true,
        { ckptW with n_calls := ckptW.n_calls + 1, num_timesteps := mt + 1 },
        if (ckptW.n_calls + 1) % ckptW.save_freq = 0
        then [ckptW.save_path ++ "/" ++ ckptW.namePfx ++ "_"
                ++ toString (mt + 1) ++ "_steps"]
        else [])) ∧
     (ckptW.n_calls = 0 → ∀ ts : List Int, ∃ s' saves,
        ckptW.run ts = .ok (s', saves) ∧
        saves.length = ts.length / ckptW.save_freq)) :=
  ⟨by decide, checkpointCallback_floor_saves ckptW (by decide)⟩

/-- C9: `__call__` increments the call counter by exactly 1, sets the
timestep counter to the trainer's timestep plus 1, delegates to `_on_step`
and returns its boolean unchanged (stated generically and for the concrete
hooks whose `_on_step` rewrites more state); the other lifecycle methods
only update bookkeeping state and return no stop signal. -/
theorem hook_step_mechanics :
    (∀ (on_step : BaseCallback → Bool × BaseCallback) (s : BaseCallback)
       (mt : Int),
       BaseCallback.call on_step s mt
         = on_step { s with n_calls := s.n_calls + 1, num_timesteps := mt + 1 }) ∧
    (∀ (s : CallbackList) (mt : Int),
       (s.call mt).2.n_calls = s.n_calls + 1
         ∧ (s.call mt).2.num_timesteps = mt + 1) ∧
    (∀ (s : EveryNTimesteps) (mt : Int),
       (s.step mt).2.n_calls = s.n_calls + 1
         ∧ (s.step mt).2.num_timesteps = mt + 1) ∧
    (∀ (s : BaseCallback) (l g : Ctx),
       BaseCallback.on_training_start s l g
         = { s with locals := some l, globals := some g }) ∧
    (∀ s : BaseCallback,
       BaseCallback.on_rollout_start s = s ∧ BaseCallback.on_rollout_end s = s
         ∧ BaseCallback.on_training_end s = s) := by
  refine ⟨fun _ _ _ => rfl, fun s mt => ?_, fun s mt => ?_,
    fun _ _ _ => rfl, fun _ => ⟨rfl, rfl, rfl⟩⟩
  · exact ⟨rfl, rfl⟩
  · constructor <;>
      · unfold EveryNTimesteps.step EveryNTimesteps.onStep
        by_cases hge : (mt + 1) - s.last_time_trigger ≥ s.n_steps
        · rw [if_pos hge]
          cases s.callback <;> rfl
        · rw [if_neg hge]

/-- C10: Python `%` by zero raises `ZeroDivisionError`, so a
`CheckpointCallback` with `save_freq = 0` and an `EvalCallback` with
`eval_freq = 0` both fail on the first `step()`: a strictly positive
frequency is an unstated precondition of both step paths. -/
theorem freq_zero_step_fails (s : CheckpointCallback) (e : EvalCallback)
    (mt mt' : Int) (rw : List ℚ)
    (hs : s.save_freq = 0) (he : e.eval_freq = 0) :
    s.step mt = .error .zeroDivisionError ∧
    e.step mt' rw = .error .zeroDivisionError := by
  constructor
  · simp [CheckpointCallback.step, CheckpointCallback.onStep, hs]
  · simp [EvalCallback.step, EvalCallback.onStep, he]

/-- Checkpoint hook constructed with frequency 0. -/
def ckptZ : CheckpointCallback := CheckpointCallback.new 0 "ckpt" "rl_model" 0

/-- Evaluation hook constructed with frequency 0. -/
def evalZ : EvalCallback := EvalCallback.new none 5 0 none none true

/-- Witness for C10 at the two frequency-0 hooks. -/
theorem freq_zero_step_fails_witness :
    ckptZ.save_freq = 0 ∧ evalZ.eval_freq = 0 ∧
    (ckptZ.step 0 = .error .zeroDivisionError ∧
     evalZ.step 0 [1] = .error .zeroDivisionError) :=
  ⟨rfl, rfl, freq_zero_step_fails ckptZ evalZ 0 0 [1] rfl rfl⟩

end Callbacks
